import Mathlib

/-!
Verification development for the pet-breed-analysis service.

The embedding translates the repository's Python sources (`models.py`,
`schemas.py`, `crud.py`, `services.py`, `main.py`) into Lean:

* SQLAlchemy rows become plain structures; the database becomes a `Store`
  of lists of rows.  Python `float` values (prevalences, similarity
  scores) are modelled as exact rationals (`ℚ`), the standard shallow
  embedding of the numeric values the code manipulates.
* The raw-SQL Jaccard query of `services.py` is translated operation by
  operation: the correlated `COUNT(*)` join, `COUNT(DISTINCT ...)`,
  the `* 1.0 /` division (SQLite yields NULL on division by zero, which
  the Python caller maps to `0.0`), `ORDER BY similarity DESC`
  (SQLite leaves tie order unspecified; the model fixes the stable
  order over the table scan, and every claim settled below is either
  insensitive to tie order or notes the choice) and `LIMIT 3`.
* `difflib.get_close_matches` (used for the 404 suggestion) is
  translated from CPython's `difflib`: the `b2j` index with the
  autojunk rule, the dynamic-programming `find_longest_match`
  (the two junk-extension loops never fire because `get_close_matches`
  constructs `SequenceMatcher(None, ...)`, so `bjunk` is empty),
  the recursive matching-block decomposition, `ratio`, `quick_ratio`,
  `real_quick_ratio` and the cutoff/`nlargest(n=1)` selection.
  Python compares `str` values by code points; that order is embedded
  as `lexLtB` below because Lean's own `String` order does not reduce
  in the kernel.
* Python's `round(x, 4)` is round-half-to-even at four decimal places,
  embedded exactly on ℚ as `roundHalfEven`.
* The OpenAI client is an opaque external capability: an `ExtEnv`
  records whether the client and the API key exist and what the
  primary call chain would produce (`some text`) or whether it raises
  (`none`).
* SQLAlchemy session semantics in `crud.py` are modelled with an
  explicit committed `Store` plus the list of pending (added but not
  yet committed) link rows: `db.commit()` (also the one inside
  `create_disease`) appends all pending rows, and a raised
  `HTTPException` discards whatever is still pending.
-/

/-- A row of the `breeds` table (`models.py`). -/
structure Breed where
  id : ℕ
  name : String
  species : String
deriving DecidableEq, Repr

/-- A row of the `diseases` table (`models.py`). -/
structure Disease where
  id : ℕ
  name : String
deriving DecidableEq, Repr

/-- A row of the `breed_disease_links` table (`models.py`). -/
structure BreedDiseaseLink where
  breed_id : ℕ
  disease_id : ℕ
  prevalence : ℚ
deriving DecidableEq, Repr

/-- The relational state: the three tables. -/
structure Store where
  breeds : List Breed
  diseases : List Disease
  links : List BreedDiseaseLink
deriving DecidableEq, Repr

deriving instance DecidableEq for Except

/-- The (breed_id, disease_id) key of every link row, in table order. -/
def linkKeys (s : Store) : List (ℕ × ℕ) :=
  s.links.map (fun l => (l.breed_id, l.disease_id))

/-- Composite uniqueness of `(breed_id, disease_id)` declared by the
`UniqueConstraint` (and the composite primary key) in `models.py`. -/
def LinkKeysNodup (s : Store) : Prop := (linkKeys s).Nodup

instance (s : Store) : Decidable (LinkKeysNodup s) :=
  inferInstanceAs (Decidable (linkKeys s).Nodup)

/-- The link rows of one breed (`WHERE breed_id = bid`). -/
def diseaseLinksOf (s : Store) (bid : ℕ) : List BreedDiseaseLink :=
  s.links.filter (fun l => decide (l.breed_id = bid))

/-- The disease ids reachable from one breed, in table order. -/
def diseaseIdsOf (s : Store) (bid : ℕ) : List ℕ :=
  (diseaseLinksOf s bid).map (fun l => l.disease_id)

/-- The disease-id set of one breed. -/
def diseaseSet (s : Store) (bid : ℕ) : Finset ℕ :=
  (diseaseIdsOf s bid).toFinset

/-- The correlated numerator subquery of `_top_similar_breeds_via_sql`:
`COUNT(*)` over the self-join of `breed_disease_links` on equal
`disease_id`, restricted to the two breeds.  The flat-map builds the
join's row pairs; `countP` is the count. -/
def sqlIntersectionCount (s : Store) (t c : ℕ) : ℕ :=
  ((diseaseLinksOf s t).flatMap (fun l1 =>
      (diseaseLinksOf s c).map (fun l2 => (l1, l2)))).countP
    (fun p => decide (p.1.disease_id = p.2.disease_id))

/-- The denominator subquery: `COUNT(DISTINCT disease_id)` over links of
either breed. -/
def sqlUnionCount (s : Store) (t c : ℕ) : ℕ :=
  ((s.links.filter (fun l =>
      decide (l.breed_id = t ∨ l.breed_id = c))).map
        (fun l => l.disease_id)).dedup.length

/-- The `similarity` column as SQLite computes it: `NULL` (here `none`)
when the divisor is zero, otherwise the exact quotient. -/
def sqlSimilarityO (s : Store) (t c : ℕ) : Option ℚ :=
  if sqlUnionCount s t c = 0 then none
  else some ((sqlIntersectionCount s t c : ℚ) / (sqlUnionCount s t c : ℚ))

/-- The raw similarity as the Python caller receives it:
`float(r.similarity) if r.similarity is not None else 0.0`. -/
def sqlSimilarity (s : Store) (t c : ℕ) : ℚ :=
  (sqlSimilarityO s t c).getD 0

/-- Jaccard similarity of the two disease sets, as the specification
states it, with the empty-union case defined to be 0.  This is the
specification-side definition against which the SQL value is compared. -/
def jaccardSpec (s : Store) (t c : ℕ) : ℚ :=
  if diseaseSet s t ∪ diseaseSet s c = ∅ then 0
  else ((diseaseSet s t ∩ diseaseSet s c).card : ℚ) /
    ((diseaseSet s t ∪ diseaseSet s c).card : ℚ)

/-! ### Round-half-to-even at four decimal places (Python `round(x, 4)`) -/

/-- Round to the nearest integer, halves to the even neighbour. -/
def roundHalfEven (q : ℚ) : ℤ :=
  if q - ⌊q⌋ < 1/2 then ⌊q⌋
  else if 1/2 < q - ⌊q⌋ then ⌊q⌋ + 1
  else if ⌊q⌋ % 2 = 0 then ⌊q⌋ else ⌊q⌋ + 1

/-- Python's `round(q, 4)` on the exact rational value. -/
def round4 (q : ℚ) : ℚ := (roundHalfEven (q * 10000) : ℚ) / 10000

/-! ### Python's string order (comparison by code points) -/

/-- Python's `<` on strings: lexicographic comparison of code points. -/
def lexLtB : List Char → List Char → Bool
  | [], [] => false
  | [], _ :: _ => true
  | _ :: _, [] => false
  | a :: as, b :: bs =>
    if a.val.toNat < b.val.toNat then true
    else if b.val.toNat < a.val.toNat then false
    else lexLtB as bs

/-- Python string `<`. -/
def strLt (x y : String) : Prop := lexLtB x.data y.data = true

/-- Python string `≤` (the order `sorted` produces). -/
def strLe (x y : String) : Prop := lexLtB y.data x.data = false

instance : DecidableRel strLt := fun _ _ =>
  inferInstanceAs (Decidable (_ = true))

instance : DecidableRel strLe := fun _ _ =>
  inferInstanceAs (Decidable (_ = false))

/-! ### The similarity engine (`_top_similar_breeds_via_sql`) -/

/-- Order on the nullable similarity column: SQLite sorts `NULL` below
every number, so `ORDER BY similarity DESC` puts `NULL` rows last. -/
def simLe : Option ℚ → Option ℚ → Prop
  | none, _ => True
  | some _, none => False
  | some p, some q => p ≤ q

instance : DecidableRel simLe := fun x y =>
  match x, y with
  | none, _ => isTrue trivial
  | some _, none => isFalse (fun h => h)
  | some p, some q => inferInstanceAs (Decidable (p ≤ q))

/-- A result row of the raw SQL query before `LIMIT`:
(name, species, similarity-or-NULL). -/
def rawRows (s : Store) (target_breed : String) : List (String × String × Option ℚ) :=
  (s.breeds.filter (fun b1 => decide (b1.name = target_breed))).flatMap (fun b1 =>
    (s.breeds.filter (fun b2 => decide (¬ b2.name = target_breed))).map (fun b2 =>
      (b2.name, b2.species, sqlSimilarityO s b1.id b2.id)))

/-- `ORDER BY similarity DESC` as a relation on rows. -/
def rowGe (x y : String × String × Option ℚ) : Prop := simLe y.2.2 x.2.2

instance : DecidableRel rowGe := fun x y =>
  inferInstanceAs (Decidable (simLe y.2.2 x.2.2))

/-- `_top_similar_breeds_via_sql`: sort descending, `LIMIT 3`, then map
`NULL` to `0.0` as the Python list comprehension does. -/
def top_similar_breeds_via_sql (s : Store) (target_breed : String) :
    List (String × String × ℚ) :=
  ((List.insertionSort rowGe (rawRows s target_breed)).take 3).map
    (fun r => (r.1, r.2.1, (r.2.2).getD 0))

/-! ### The score adjuster (`_apply_species_penalty`) -/

/-- Descending order on adjusted scores (`key=lambda x: x[2], reverse=True`). -/
def scoreGe (x y : String × String × ℚ) : Prop := y.2.2 ≤ x.2.2

instance : DecidableRel scoreGe := fun x y =>
  inferInstanceAs (Decidable (y.2.2 ≤ x.2.2))

/-- The per-row body of the loop in `_apply_species_penalty`. -/
def adjustOne (target_species : String) (r : String × String × ℚ) :
    String × String × ℚ :=
  (r.1, r.2.1,
    round4 (if ¬ r.2.1 = target_species then max 0 (r.2.2 - 1/10) else r.2.2))

/-- `_apply_species_penalty`: penalize, round, re-sort descending by
score (Python's `list.sort` is stable, as is insertion sort). -/
def apply_species_penalty (target_species : String)
    (sims : List (String × String × ℚ)) : List (String × String × ℚ) :=
  List.insertionSort scoreGe (sims.map (adjustOne target_species))

/-! ### The shared-disease aggregator (`_shared_diseases_with_top_breeds`) -/

/-- The loop of `_shared_diseases_with_top_breeds`: walk the similar
breed names; a name that does not resolve contributes nothing
(`continue`); a resolved breed contributes the intersection of its
disease ids with the target set, accumulated as a set. -/
def sharedAccum (s : Store) (target_disease_ids : List ℕ) :
    List ℕ → List String → List ℕ
  | acc, [] => acc
  | acc, bn :: rest =>
    match s.breeds.find? (fun b => decide (b.name = bn)) with
    | none => sharedAccum s target_disease_ids acc rest
    | some b => sharedAccum s target_disease_ids
        (((diseaseIdsOf s b.id).inter target_disease_ids).union acc) rest

/-- `_shared_diseases_with_top_breeds`.  The running `shared_ids` set is
a duplicate-free list; `List.union`/`List.inter` are the set operations.
The final comprehension `disease_map[did]` is a lookup in the diseases
table (its `KeyError` case cannot arise for ids drawn from the join in
`_fetch_target_diseases`; the model skips such an id), and `sorted`
sorts the names in Python's string order. -/
def shared_diseases_with_top_breeds (s : Store) (target_disease_ids : List ℕ)
    (top_breed_names : List String) : List String :=
  if top_breed_names = [] then []
  else
    List.insertionSort strLe
      ((sharedAccum s target_disease_ids [] top_breed_names).filterMap (fun did =>
        (s.diseases.find? (fun d => decide (d.id = did))).map (fun d => d.name)))

/-! ### The care-plan generator (`_generate_care_plan`, `_fallback_plan`) -/

/-- External-service state: whether the module-level client was built,
whether `OPENAI_API_KEY` is set, and what the primary call chain
(`create(...)` followed by `.strip()`) returns — `none` models any
raised exception. -/
structure ExtEnv where
  hasClient : Bool
  hasKey : Bool
  primary : Option String
deriving DecidableEq, Repr

/-- `_fallback_plan`: header plus one bullet line per disease, in the
order supplied. -/
def fallback_plan (breed_name : String) (diseases : List (String × ℚ)) : String :=
  "Preventive care plan for " ++ breed_name ++ ":\n" ++
    String.intercalate "\n" (diseases.map (fun p =>
      "- " ++ p.1 ++ ": monitor, vet checkups, lifestyle adjustments."))

/-- `_generate_care_plan`: fallback on missing client or missing key;
otherwise the primary result, falling back on any raised exception. -/
def generate_care_plan (env : ExtEnv) (breed_name : String)
    (diseases_with_prev : List (String × ℚ)) : String :=
  if !env.hasClient || !env.hasKey then fallback_plan breed_name diseases_with_prev
  else
    match env.primary with
    | some text => text
    | none => fallback_plan breed_name diseases_with_prev

/-- Split a string into its lines at every single newline character
(structurally, so that concrete instances reduce in the kernel). -/
def splitLinesAux : List Char → List Char → List (List Char)
  | acc, [] => [acc.reverse]
  | acc, c :: cs =>
    if c = '\n' then acc.reverse :: splitLinesAux [] cs
    else splitLinesAux (c :: acc) cs

/-- The lines of a string, as code-point lists. -/
def linesOf (s : String) : List (List Char) := splitLinesAux [] s.data

/-! ### `difflib` (CPython), as used by `_get_breed_by_name_or_404`

`difflib.get_close_matches(breed_name, all_names, n=1)` with the default
cutoff `0.6`.  `SequenceMatcher` is built with `isjunk=None`, so the junk
set is empty; the autojunk rule only prunes `b2j` for sequences of
length ≥ 200. -/

/-- The ascending list of positions of `c` in `b`. -/
def charIndices (b : List Char) (c : Char) : List ℕ :=
  (List.range b.length).filter (fun j => decide (b.getD j 'a' = c))

/-- `b2j` lookup: positions of `c` in `b`, with the autojunk pruning of
popular elements for long sequences. -/
def b2j (b : List Char) (c : Char) : List ℕ :=
  let ix := charIndices b c
  if b.length ≥ 200 ∧ b.length / 100 + 1 < ix.length then [] else ix

/-- `j2len.get(j, 0)` on the association-list model of the dict. -/
def j2lenGet (m : List (ℕ × ℕ)) (j : ℕ) : ℕ :=
  match m.find? (fun p => decide (p.1 = j)) with
  | some p => p.2
  | none => 0

/-- The inner loop of `find_longest_match` for one position `i` of `a`:
fold over the in-window positions of `a[i]` in `b`, building the new
`j2len` dict and updating the best match.  `j2len.get(j-1, 0)` reads the
previous diagonal; for `j = 0` Python reads key `-1`, which is never
present, hence the explicit zero case. -/
def flmInner (i : ℕ) (j2len : List (ℕ × ℕ)) (best : ℕ × ℕ × ℕ)
    (js : List ℕ) : List (ℕ × ℕ) × (ℕ × ℕ × ℕ) :=
  js.foldl (fun st j =>
    let k := if j = 0 then 1 else j2lenGet j2len (j - 1) + 1
    ((j, k) :: st.1,
      if st.2.2.2 < k then (i + 1 - k, j + 1 - k, k) else st.2)) ([], best)

/-- The dynamic-programming pass of `find_longest_match` over
`i ∈ [alo, ahi)`.  The `continue`/`break` window test on the ascending
position list is the filter `blo ≤ j < bhi`. -/
def flmOuter (a b : List Char) (alo ahi blo bhi : ℕ) : ℕ × ℕ × ℕ :=
  ((List.range' alo (ahi - alo)).foldl (fun st i =>
    let js := (b2j b (a.getD i 'a')).filter (fun j => decide (blo ≤ j ∧ j < bhi))
    flmInner i st.1 st.2 js) ([], (alo, blo, 0))).2

/-- The first extension loop: widen the best match to the left while the
adjacent characters agree (the junk test is vacuous).  Fuel-driven; the
fuel is the distance available on the left. -/
def extendLo (a b : List Char) (alo blo : ℕ) : ℕ → ℕ × ℕ × ℕ → ℕ × ℕ × ℕ
  | 0, st => st
  | fuel + 1, (bi, bj, bs) =>
    if alo < bi ∧ blo < bj ∧ a.getD (bi - 1) 'a' = b.getD (bj - 1) 'b' then
      extendLo a b alo blo fuel (bi - 1, bj - 1, bs + 1)
    else (bi, bj, bs)

/-- The second extension loop: widen the best match to the right. -/
def extendHi (a b : List Char) (ahi bhi : ℕ) : ℕ → ℕ × ℕ × ℕ → ℕ × ℕ × ℕ
  | 0, st => st
  | fuel + 1, (bi, bj, bs) =>
    if bi + bs < ahi ∧ bj + bs < bhi ∧ a.getD (bi + bs) 'a' = b.getD (bj + bs) 'b' then
      extendHi a b ahi bhi fuel (bi, bj, bs + 1)
    else (bi, bj, bs)

/-- `find_longest_match(alo, ahi, blo, bhi)`: DP pass, then the two
extension loops (the junk-conditioned loops never fire with an empty
junk set). -/
def find_longest_match (a b : List Char) (alo ahi blo bhi : ℕ) : ℕ × ℕ × ℕ :=
  let st := flmOuter a b alo ahi blo bhi
  let st2 := extendLo a b alo blo st.1 st
  extendHi a b ahi bhi (ahi - (st2.1 + st2.2.2)) st2

/-- Total size of all matching blocks on `[alo,ahi) × [blo,bhi)`: the
queue-driven decomposition of `get_matching_blocks`, summed.  Each
recursive interval is strictly shorter on the `a` side, so `ahi - alo`
bounds the depth and the fuel is sufficient at every top-level call. -/
def matchTotalF (a b : List Char) : ℕ → ℕ → ℕ → ℕ → ℕ → ℕ
  | 0, _, _, _, _ => 0
  | fuel + 1, alo, ahi, blo, bhi =>
    let m := find_longest_match a b alo ahi blo bhi
    if m.2.2 = 0 then 0
    else m.2.2 +
      (if alo < m.1 ∧ blo < m.2.1 then matchTotalF a b fuel alo m.1 blo m.2.1 else 0) +
      (if m.1 + m.2.2 < ahi ∧ m.2.1 + m.2.2 < bhi then
        matchTotalF a b fuel (m.1 + m.2.2) ahi (m.2.1 + m.2.2) bhi else 0)

/-- Sum of matching-block sizes for the full sequences. -/
def matchTotal (a b : List Char) : ℕ :=
  matchTotalF a b (a.length + 1) 0 a.length 0 b.length

/-- `_calculate_ratio(matches, length)`. -/
def calcScore (m n : ℕ) : ℚ :=
  if n = 0 then 1 else 2 * (m : ℚ) / (n : ℚ)

/-- `SequenceMatcher.ratio()` for `a = x`, `b = word`. -/
def seqScore (a b : List Char) : ℚ := calcScore (matchTotal a b) (a.length + b.length)

/-- `SequenceMatcher.quick_ratio()`: per-character minimum counts. -/
def quickScore (a b : List Char) : ℚ :=
  calcScore ((a.dedup.map (fun c => min (a.count c) (b.count c))).sum)
    (a.length + b.length)

/-- `SequenceMatcher.real_quick_ratio()`. -/
def realQuickScore (a b : List Char) : ℚ :=
  calcScore (min a.length b.length) (a.length + b.length)

/-- `difflib.get_close_matches(word, possibilities, n=1)` with the
default cutoff `0.6`: keep the candidates passing the three staged
cutoff tests, then `heapq.nlargest(1, ...)` on (score, name) pairs,
whose tuple order compares the score and then the string (Python keeps
the earliest of fully equal pairs). -/
def get_close_matches (word : String) (possibilities : List String) : List String :=
  let qual := possibilities.filter (fun x =>
    decide ((3 : ℚ)/5 ≤ realQuickScore x.data word.data) &&
    decide ((3 : ℚ)/5 ≤ quickScore x.data word.data) &&
    decide ((3 : ℚ)/5 ≤ seqScore x.data word.data))
  match qual.map (fun x => (seqScore x.data word.data, x)) with
  | [] => []
  | p :: ps =>
    [(ps.foldl (fun acc q =>
        if acc.1 < q.1 ∨ (acc.1 = q.1 ∧ strLt acc.2 q.2) then q else acc) p).2]

/-! ### The orchestrator (`run_risk_analysis`) -/

/-- `schemas.RiskAnalysisResponseSchema`; each similar-breed entry is
(name, species, similarity). -/
structure RiskAnalysisResponse where
  target_breed : String
  similar_breeds : List (String × String × ℚ)
  shared_diseases : List String
  care_plan : String
deriving DecidableEq, Repr

/-- `_fetch_target_diseases`: the join of the target's links with the
diseases table, yielding (name, prevalence, id) rows in link-table
order (the SQL specifies no order). -/
def fetch_target_diseases (s : Store) (bid : ℕ) : List (String × ℚ × ℕ) :=
  (s.links.filter (fun l => decide (l.breed_id = bid))).filterMap
    (fun l => (s.diseases.find? (fun d => decide (d.id = l.disease_id))).map
      (fun d => (d.name, l.prevalence, d.id)))

/-- `run_risk_analysis`, with `_get_breed_by_name_or_404` inlined in the
lookup branch: on a miss, a 404 whose detail optionally carries the
`difflib` suggestion; on a hit, the six-step pipeline of `services.py`. -/
def run_risk_analysis (env : ExtEnv) (s : Store) (breed_name : String) :
    Except (ℕ × String) RiskAnalysisResponse :=
  match s.breeds.find? (fun b => decide (b.name = breed_name)) with
  | none =>
    .error (404,
      match get_close_matches breed_name (s.breeds.map (fun b => b.name)) with
      | [] => "Breed '" ++ breed_name ++ "' not found."
      | sug :: _ =>
        "Breed '" ++ breed_name ++ "' not found." ++
          " Did you mean '" ++ sug ++ "'?")
  | some target =>
    let target_diseases := fetch_target_diseases s target.id
    let target_disease_ids := target_diseases.map (fun x => x.2.2)
    let top_raw := top_similar_breeds_via_sql s target.name
    let top_adj := apply_species_penalty target.species top_raw
    let top_names := top_adj.map (fun t => t.1)
    let shared := shared_diseases_with_top_breeds s target_disease_ids top_names
    let care_plan := generate_care_plan env target.name
      (target_diseases.map (fun x => (x.1, x.2.1)))
    .ok ⟨target.name, top_adj, shared, care_plan⟩

/-! ### Breed creation (`schemas.py`, `crud.py`, `main.py`) -/

/-- `schemas.DiseaseCreateSchema` (the `Field(..., ge=0, le=1)` bound is
enforced by `validate_breed_create` below, as pydantic enforces it
before the handler runs). -/
structure DiseaseCreateSchema where
  disease_name : String
  prevalence : ℚ
deriving DecidableEq, Repr

/-- `schemas.BreedCreateSchema`. -/
structure BreedCreateSchema where
  name : String
  species : String
  diseases : List DiseaseCreateSchema
deriving DecidableEq, Repr

/-- `schemas.BreedResponseSchema`; each disease entry is
(disease_name, prevalence). -/
structure BreedResponse where
  name : String
  species : String
  diseases : List (String × ℚ)
deriving DecidableEq, Repr

/-- Fresh autoincrement id for a breed row. -/
def freshBreedId (s : Store) : ℕ := ((s.breeds.map (fun b => b.id)).foldr max 0) + 1

/-- Fresh autoincrement id for a disease row. -/
def freshDiseaseId (s : Store) : ℕ := ((s.diseases.map (fun d => d.id)).foldr max 0) + 1

/-- `db.commit()` for the pending link rows of the session. -/
def commitLinks (s : Store) (pending : List BreedDiseaseLink) : Store :=
  { s with links := s.links ++ pending }

/-- `schemas.BreedResponseSchema` built from `breed.diseases` in the
committed store. -/
def breed_response (s : Store) (b : Breed) : BreedResponse :=
  ⟨b.name, b.species,
    (s.links.filter (fun l => decide (l.breed_id = b.id))).filterMap
      (fun l => (s.diseases.find? (fun d => decide (d.id = l.disease_id))).map
        (fun d => (d.name, l.prevalence)))⟩

/-- The disease loop of `crud.create_breed`.  State: the committed store
and the pending (added, uncommitted) link rows.  An out-of-range
prevalence raises, discarding pending links but keeping everything
already committed.  `create_disease` commits the session, which also
flushes the pending links gathered so far. -/
def create_breed_disease_loop (bid : ℕ) :
    Store → List BreedDiseaseLink → List DiseaseCreateSchema →
    Store × Except (ℕ × String) Unit
  | cs, pending, [] => (commitLinks cs pending, .ok ())
  | cs, pending, d :: rest =>
    if ¬ (0 ≤ d.prevalence ∧ d.prevalence ≤ 1) then
      (cs, .error (400, "Prevalence must be between 0 and 1."))
    else
      match cs.diseases.find? (fun dd => decide (dd.name = d.disease_name)) with
      | some dd =>
        create_breed_disease_loop bid cs
          (pending ++ [⟨bid, dd.id, d.prevalence⟩]) rest
      | none =>
        let did := freshDiseaseId cs
        let cs2 := commitLinks
          { cs with diseases := cs.diseases ++ [⟨did, d.disease_name⟩] } pending
        create_breed_disease_loop bid cs2 [⟨bid, did, d.prevalence⟩] rest

/-- `crud.create_breed`: species check, duplicate check, then commit the
breed row and run the disease loop; the response is built from the
final committed store. -/
def create_breed (s : Store) (breed_data : BreedCreateSchema) :
    Store × Except (ℕ × String) BreedResponse :=
  if ¬ (breed_data.species = "dog" ∨ breed_data.species = "cat") then
    (s, .error (400, "Species must be 'dog' or 'cat'."))
  else if (s.breeds.find? (fun b => decide (b.name = breed_data.name))).isSome then
    (s, .error (400, "Breed already exists."))
  else
    let b : Breed := ⟨freshBreedId s, breed_data.name, breed_data.species⟩
    let s1 : Store := { s with breeds := s.breeds ++ [b] }
    match create_breed_disease_loop b.id s1 [] breed_data.diseases with
    | (sfinal, .ok ()) => (sfinal, .ok (breed_response sfinal b))
    | (sfinal, .error e) => (sfinal, .error e)

/-- The pydantic body validation FastAPI runs before the handler:
every `prevalence` must satisfy `ge=0, le=1`. -/
def validate_breed_create (r : BreedCreateSchema) : Bool :=
  r.diseases.all (fun d => decide (0 ≤ d.prevalence) && decide (d.prevalence ≤ 1))

/-- The `POST /breeds` endpoint: an invalid body is rejected with 422
before the handler (and hence the store) is touched; a valid body is
handed to `crud.create_breed`. -/
def post_breeds (s : Store) (r : BreedCreateSchema) :
    Store × Except (ℕ × String) BreedResponse :=
  if validate_breed_create r then create_breed s r
  else (s, .error (422, "Unprocessable Entity"))

/-! ### Basic facts about the rounding function -/

lemma roundHalfEven_bounds (q : ℚ) :
    ⌊q⌋ ≤ roundHalfEven q ∧ roundHalfEven q ≤ ⌊q⌋ + 1 := by
  unfold roundHalfEven
  split_ifs <;> omega

lemma roundHalfEven_mono {q q' : ℚ} (h : q ≤ q') :
    roundHalfEven q ≤ roundHalfEven q' := by
  rcases lt_or_eq_of_le (Int.floor_le_floor h) with hf | hf
  · have h1 := (roundHalfEven_bounds q).2
    have h2 := (roundHalfEven_bounds q').1
    omega
  · have h1 : q - (⌊q⌋ : ℚ) ≤ q' - (⌊q'⌋ : ℚ) := by
      rw [hf]
      have : (⌊q'⌋ : ℚ) ≤ ⌊q'⌋ := le_refl _
      linarith
    unfold roundHalfEven
    rw [hf]
    split_ifs <;> first | omega | linarith

lemma roundHalfEven_zero : roundHalfEven 0 = 0 := by
  norm_num [roundHalfEven]

lemma roundHalfEven_tenthousand : roundHalfEven 10000 = 10000 := by
  norm_num [roundHalfEven]

lemma round4_nonneg {q : ℚ} (h : 0 ≤ q) : 0 ≤ round4 q := by
  have h1 : (0 : ℤ) ≤ roundHalfEven (q * 10000) := by
    have := roundHalfEven_mono (show (0 : ℚ) ≤ q * 10000 by nlinarith)
    rwa [roundHalfEven_zero] at this
  unfold round4
  have h2 : (0 : ℚ) ≤ (roundHalfEven (q * 10000) : ℚ) := by exact_mod_cast h1
  linarith

lemma round4_le_one {q : ℚ} (h : q ≤ 1) : round4 q ≤ 1 := by
  have h1 : roundHalfEven (q * 10000) ≤ 10000 := by
    have := roundHalfEven_mono (show q * 10000 ≤ 10000 by nlinarith)
    rwa [roundHalfEven_tenthousand] at this
  unfold round4
  have h2 : (roundHalfEven (q * 10000) : ℚ) ≤ 10000 := by exact_mod_cast h1
  linarith

lemma round4_mono {q q' : ℚ} (h : q ≤ q') : round4 q ≤ round4 q' := by
  have h1 : roundHalfEven (q * 10000) ≤ roundHalfEven (q' * 10000) :=
    roundHalfEven_mono (by nlinarith)
  have h2 : (roundHalfEven (q * 10000) : ℚ) ≤ roundHalfEven (q' * 10000) := by
    exact_mod_cast h1
  unfold round4
  linarith

/-- `round4` fixes every rational with at most four decimal places. -/
lemma round4_int (q : ℚ) (n : ℤ) (h : q * 10000 = (n : ℚ)) : round4 q = q := by
  unfold round4 roundHalfEven
  rw [h, Int.floor_intCast]
  rw [if_pos (by norm_num : (n : ℚ) - (n : ℤ) < 1/2)]
  have h10 : (10000 : ℚ) ≠ 0 := by norm_num
  field_simp
  linarith [h]

lemma round4_half : round4 (1/2) = 1/2 := round4_int _ 5000 (by norm_num)

lemma round4_two_fifths : round4 (2/5) = 2/5 := round4_int _ 4000 (by norm_num)

/-! ### Order-theoretic facts about the sorting relations -/

instance : IsTotal (String × String × ℚ) scoreGe :=
  ⟨fun a b => le_total b.2.2 a.2.2⟩

instance : IsTrans (String × String × ℚ) scoreGe :=
  ⟨fun _ _ _ h1 h2 => le_trans h2 h1⟩

lemma simLe_total (x y : Option ℚ) : simLe x y ∨ simLe y x := by
  cases x with
  | none => exact Or.inl trivial
  | some p =>
    cases y with
    | none => exact Or.inr trivial
    | some q => exact le_total p q

lemma simLe_trans {x y z : Option ℚ} (h1 : simLe x y) (h2 : simLe y z) :
    simLe x z := by
  cases x with
  | none => exact trivial
  | some p =>
    cases y with
    | none => exact h1.elim
    | some q =>
      cases z with
      | none => exact h2.elim
      | some r => exact le_trans (α := ℚ) h1 h2

instance : IsTotal (String × String × Option ℚ) rowGe :=
  ⟨fun a b => by unfold rowGe; exact simLe_total b.2.2 a.2.2⟩

instance : IsTrans (String × String × Option ℚ) rowGe :=
  ⟨fun _ _ _ h1 h2 => simLe_trans h2 h1⟩

lemma lexLtB_asymm : ∀ as bs, lexLtB as bs = true → lexLtB bs as = false := by
  intro as
  induction as with
  | nil =>
    intro bs h
    cases bs with
    | nil => simp [lexLtB] at h
    | cons b bs => simp [lexLtB]
  | cons a as ih =>
    intro bs h
    cases bs with
    | nil => simp [lexLtB] at h
    | cons b bs =>
      simp only [lexLtB] at h ⊢
      rcases Nat.lt_trichotomy a.val.toNat b.val.toNat with hab | hab | hab
      · rw [if_neg (by omega), if_pos hab]
      · rw [if_neg (by omega), if_neg (by omega)] at h ⊢
        exact ih bs h
      · rw [if_neg (by omega), if_pos hab] at h
        exact absurd h (by simp)

lemma lexLtB_trans : ∀ as bs cs, lexLtB as bs = true → lexLtB bs cs = true →
    lexLtB as cs = true := by
  intro as
  induction as with
  | nil =>
    intro bs cs h1 h2
    cases bs with
    | nil => simp [lexLtB] at h1
    | cons b bs =>
      cases cs with
      | nil => simp [lexLtB] at h2
      | cons c cs => simp [lexLtB]
  | cons a as ih =>
    intro bs cs h1 h2
    cases bs with
    | nil => simp [lexLtB] at h1
    | cons b bs =>
      cases cs with
      | nil => simp [lexLtB] at h2
      | cons c cs =>
        simp only [lexLtB] at h1 h2 ⊢
        rcases Nat.lt_trichotomy a.val.toNat b.val.toNat with hab | hab | hab
        · rcases Nat.lt_trichotomy b.val.toNat c.val.toNat with hbc | hbc | hbc
          · rw [if_pos (by omega)]
          · rw [if_pos (by omega)]
          · rw [if_neg (by omega), if_pos hbc] at h2
            exact absurd h2 (by simp)
        · rw [if_neg (by omega), if_neg (by omega)] at h1
          rcases Nat.lt_trichotomy b.val.toNat c.val.toNat with hbc | hbc | hbc
          · rw [if_pos (by omega)]
          · rw [if_neg (by omega), if_neg (by omega)] at h2 ⊢
            exact ih bs cs h1 h2
          · rw [if_neg (by omega), if_pos hbc] at h2
            exact absurd h2 (by simp)
        · rw [if_neg (by omega), if_pos hab] at h1
          exact absurd h1 (by simp)

lemma lexLtB_conn : ∀ as bs, lexLtB as bs = false → lexLtB bs as = false →
    as = bs := by
  intro as
  induction as with
  | nil =>
    intro bs h1 _
    cases bs with
    | nil => rfl
    | cons b bs => simp [lexLtB] at h1
  | cons a as ih =>
    intro bs h1 h2
    cases bs with
    | nil => simp [lexLtB] at h2
    | cons b bs =>
      simp only [lexLtB] at h1 h2
      rcases Nat.lt_trichotomy a.val.toNat b.val.toNat with hab | hab | hab
      · rw [if_pos hab] at h1
        exact absurd h1 (by simp)
      · rw [if_neg (by omega), if_neg (by omega)] at h1 h2
        have hchar : a = b := Char.ext (UInt32.toNat.inj hab)
        rw [hchar, ih bs h1 h2]
      · rw [if_pos hab] at h2
        exact absurd h2 (by simp)

instance : IsTotal String strLe :=
  ⟨fun x y => by
    unfold strLe
    rcases Bool.eq_false_or_eq_true (lexLtB y.data x.data) with h | h
    · exact Or.inr (lexLtB_asymm _ _ h)
    · exact Or.inl h⟩

instance : IsTrans String strLe :=
  ⟨fun x y z h1 h2 => by
    unfold strLe at h1 h2 ⊢
    by_contra hzx
    rw [Bool.not_eq_false] at hzx
    rcases Bool.eq_false_or_eq_true (lexLtB y.data z.data) with hyz | hyz
    · have := lexLtB_trans _ _ _ hyz hzx
      exact absurd this (by rw [h1]; simp)
    · have hdata : z.data = y.data := lexLtB_conn _ _ h2 hyz
      rw [hdata] at hzx
      exact absurd hzx (by rw [h1]; simp)⟩

/-! ### Claim C2 -/

/-- C2: when both breeds have empty disease sets, the raw similarity the
Python caller receives is 0 and no division error occurs: SQLite yields
`NULL` for the zero divisor and `_top_similar_breeds_via_sql` maps
`NULL` to `0.0` (the embedding of the whole computation is total). -/
theorem c2_empty_sets_similarity_zero (s : Store) (t c : ℕ)
    (ht : diseaseIdsOf s t = []) (hc : diseaseIdsOf s c = []) :
    sqlSimilarity s t c = 0 := by
  have h1 : diseaseLinksOf s t = [] := List.map_eq_nil_iff.mp ht
  have h2 : diseaseLinksOf s c = [] := List.map_eq_nil_iff.mp hc
  have hden : sqlUnionCount s t c = 0 := by
    unfold sqlUnionCount
    have hfil : s.links.filter (fun l => decide (l.breed_id = t ∨ l.breed_id = c)) = [] := by
      rw [List.filter_eq_nil_iff]
      intro a ha
      simp only [decide_eq_true_eq]
      rintro (h | h)
      · have hmem : a ∈ diseaseLinksOf s t := by
          unfold diseaseLinksOf
          rw [List.mem_filter]
          exact ⟨ha, by simpa using h⟩
        rw [h1] at hmem
        exact absurd hmem (List.not_mem_nil a)
      · have hmem : a ∈ diseaseLinksOf s c := by
          unfold diseaseLinksOf
          rw [List.mem_filter]
          exact ⟨ha, by simpa using h⟩
        rw [h2] at hmem
        exact absurd hmem (List.not_mem_nil a)
    rw [hfil]
    rfl
  unfold sqlSimilarity sqlSimilarityO
  rw [if_pos hden]
  rfl

/-- Concrete store for the C2 witness: two breeds, no links at all. -/
def c2store : Store := ⟨[⟨1, "X", "dog"⟩, ⟨2, "Y", "dog"⟩], [], []⟩

theorem c2_witness :
    diseaseIdsOf c2store 1 = [] ∧ diseaseIdsOf c2store 2 = [] ∧
      sqlSimilarity c2store 1 2 = 0 :=
  ⟨by decide, by decide,
    c2_empty_sets_similarity_zero c2store 1 2 (by decide) (by decide)⟩

/-! ### Claim C4 -/

/-- C4: every row produced by `_apply_species_penalty` arises from an
input row (name, species, raw) as the raw score rounded to four decimal
places when the species matches the target, and as
max(0, raw − 0.10) rounded to four decimal places otherwise; the
adjusted score lies in [0,1] whenever the raw score does. -/
theorem c4_penalty_formula (target_species : String)
    (sims : List (String × String × ℚ)) (y : String × String × ℚ)
    (hy : y ∈ apply_species_penalty target_species sims) :
    ∃ x ∈ sims,
      y = (x.1, x.2.1,
        if x.2.1 = target_species then round4 x.2.2
        else round4 (max 0 (x.2.2 - 1/10))) ∧
      (0 ≤ x.2.2 → x.2.2 ≤ 1 → 0 ≤ y.2.2 ∧ y.2.2 ≤ 1) := by
  unfold apply_species_penalty at hy
  have hperm := List.perm_insertionSort scoreGe (sims.map (adjustOne target_species))
  have hy2 : y ∈ sims.map (adjustOne target_species) := hperm.mem_iff.mp hy
  rcases List.mem_map.mp hy2 with ⟨x, hx, hxy⟩
  refine ⟨x, hx, ?_, ?_⟩
  · rw [← hxy]
    simp only [adjustOne]
    by_cases hsp : x.2.1 = target_species
    · rw [if_pos hsp, if_neg (not_not_intro hsp)]
    · rw [if_neg hsp, if_pos hsp]
  · intro h0 h1
    rw [← hxy]
    simp only [adjustOne]
    by_cases hsp : x.2.1 = target_species
    · rw [if_neg (not_not_intro hsp)]
      exact ⟨round4_nonneg h0, round4_le_one h1⟩
    · rw [if_pos hsp]
      refine ⟨round4_nonneg (le_max_left _ _), ?_⟩
      exact round4_le_one (max_le (by norm_num) (by linarith))

/-- Concrete input for the C4 witness. -/
def c4sims : List (String × String × ℚ) := [("Y", "dog", 1/2)]

theorem c4_witness :
    (("Y", "dog", (1 : ℚ)/2) ∈ apply_species_penalty "dog" c4sims) ∧
      ∃ x ∈ c4sims,
        ("Y", "dog", (1 : ℚ)/2) = (x.1, x.2.1,
          if x.2.1 = "dog" then round4 x.2.2
          else round4 (max 0 (x.2.2 - 1/10))) ∧
        (0 ≤ x.2.2 → x.2.2 ≤ 1 →
          0 ≤ (("Y", "dog", (1 : ℚ)/2) : String × String × ℚ).2.2 ∧
            (("Y", "dog", (1 : ℚ)/2) : String × String × ℚ).2.2 ≤ 1) := by
  have heval : apply_species_penalty "dog" c4sims = [("Y", "dog", (1 : ℚ)/2)] := by
    simp only [apply_species_penalty, c4sims, adjustOne, List.map_cons,
      List.map_nil, List.insertionSort, List.orderedInsert]
    norm_num [round4_int _ 5000 (by norm_num : (1 : ℚ)/2 * 10000 = ((5000 : ℤ) : ℚ))]
  have hmem : ("Y", "dog", (1 : ℚ)/2) ∈ apply_species_penalty "dog" c4sims := by
    rw [heval]
    exact List.mem_singleton.mpr rfl
  exact ⟨hmem, c4_penalty_formula "dog" c4sims _ hmem⟩

/-! ### Claim C7 -/

/-- C7 (amended): whenever the client is missing, the key is missing, or
the primary call raises, `_generate_care_plan` returns exactly the
deterministic fallback text: the header naming the breed followed by one
line per supplied disease, in order, of the form
"- name: monitor, vet checkups, lifestyle adjustments.". -/
theorem c7_fallback_format (env : ExtEnv) (breed_name : String)
    (ds : List (String × ℚ))
    (hfail : env.hasClient = false ∨ env.hasKey = false ∨ env.primary = none) :
    generate_care_plan env breed_name ds =
      "Preventive care plan for " ++ breed_name ++ ":\n" ++
        String.intercalate "\n" (ds.map (fun p =>
          "- " ++ p.1 ++ ": monitor, vet checkups, lifestyle adjustments.")) := by
  rcases env with ⟨hc, hk, pr⟩
  rcases hfail with h | h | h
  · simp only at h
    subst h
    simp [generate_care_plan, fallback_plan]
  · simp only at h
    subst h
    simp [generate_care_plan, fallback_plan]
  · simp only at h
    subst h
    cases hc <;> cases hk <;> simp [generate_care_plan, fallback_plan]

/-- C7 counterexample: at breed "X" with the single disease ("H", 1/2)
and a failing external service, the generated text has exactly two
lines; the disease line is the bulleted
"- H: monitor, vet checkups, lifestyle adjustments.", which differs from
the form "H: monitor, vet checkups, lifestyle adjustments." stated by
the claim. -/
theorem c7_counterexample :
    linesOf (generate_care_plan ⟨false, false, none⟩ "X" [("H", 1/2)]) =
      ["Preventive care plan for X:".data,
        "- H: monitor, vet checkups, lifestyle adjustments.".data] ∧
      "- H: monitor, vet checkups, lifestyle adjustments.".data ≠
        "H: monitor, vet checkups, lifestyle adjustments.".data := by
  constructor
  · decide
  · decide

theorem c7_witness :
    ((⟨false, true, some "text"⟩ : ExtEnv).hasClient = false ∨
      (⟨false, true, some "text"⟩ : ExtEnv).hasKey = false ∨
      (⟨false, true, some "text"⟩ : ExtEnv).primary = none) ∧
    generate_care_plan ⟨false, true, some "text"⟩ "B" [("D", 1)] =
      "Preventive care plan for " ++ "B" ++ ":\n" ++
        String.intercalate "\n" ([(("D", (1 : ℚ)))].map (fun p =>
          "- " ++ p.1 ++ ": monitor, vet checkups, lifestyle adjustments.")) :=
  ⟨Or.inl rfl, c7_fallback_format ⟨false, true, some "text"⟩ "B" [("D", 1)] (Or.inl rfl)⟩

/-! ### Claim C9 -/

/-- C9: a breed-creation request carrying any disease whose prevalence
lies outside [0,1] is rejected by the pydantic body validation with a
4xx response (422) before the handler runs, so the store is completely
unchanged: no breed, disease or link row is written, including none for
diseases listed before the invalid one. -/
theorem c9_invalid_prevalence_rejected (s : Store) (r : BreedCreateSchema)
    (hbad : ∃ d ∈ r.diseases, d.prevalence < 0 ∨ 1 < d.prevalence) :
    post_breeds s r = (s, .error (422, "Unprocessable Entity")) := by
  unfold post_breeds
  rw [if_neg]
  intro hval
  rcases hbad with ⟨d, hd, hout⟩
  have hall := (List.all_eq_true.mp hval) d hd
  simp only [Bool.and_eq_true, decide_eq_true_eq] at hall
  rcases hout with h | h
  · linarith [hall.1]
  · linarith [hall.2]

/-- Concrete request for the C9 witness: prevalence 3/2 = 1.5. -/
def c9req : BreedCreateSchema := ⟨"X", "dog", [⟨"D", 3/2⟩]⟩

theorem c9_witness :
    (∃ d ∈ c9req.diseases, d.prevalence < 0 ∨ 1 < d.prevalence) ∧
      post_breeds c2store c9req = (c2store, .error (422, "Unprocessable Entity")) :=
  ⟨⟨⟨"D", 3/2⟩, by simp [c9req], Or.inr (by norm_num)⟩,
    c9_invalid_prevalence_rejected c2store c9req
      ⟨⟨"D", 3/2⟩, by simp [c9req], Or.inr (by norm_num)⟩⟩

/-! ### Claim C10 -/

/-- C10: a breed-creation request with a valid species whose name is
already registered fails with the 400 duplicate error before any write
is attempted: the returned store is exactly the input store, even when
the request lists new disease names. -/
theorem c10_duplicate_name_no_write (s : Store) (r : BreedCreateSchema)
    (hsp : r.species = "dog" ∨ r.species = "cat")
    (hdup : (s.breeds.find? (fun b => decide (b.name = r.name))).isSome) :
    create_breed s r = (s, .error (400, "Breed already exists.")) := by
  unfold create_breed
  rw [if_neg (not_not_intro hsp), if_pos hdup]

/-- Concrete request for the C10 witness: duplicate name "X" with a new
disease name. -/
def c10req : BreedCreateSchema := ⟨"X", "dog", [⟨"NewDisease", 1/2⟩]⟩

theorem c10_witness :
    (c10req.species = "dog" ∨ c10req.species = "cat") ∧
      ((c2store.breeds.find? (fun b => decide (b.name = c10req.name))).isSome) ∧
      create_breed c2store c10req = (c2store, .error (400, "Breed already exists.")) :=
  ⟨Or.inl rfl, by decide,
    c10_duplicate_name_no_write c2store c10req (Or.inl rfl) (by decide)⟩

/-! ### Counting lemmas for the SQL similarity query -/

lemma countP_pairs_eq_sum (A B : List BreedDiseaseLink) :
    (A.flatMap (fun l1 => B.map (fun l2 => (l1, l2)))).countP
      (fun p => decide (p.1.disease_id = p.2.disease_id)) =
    (A.map (fun l1 =>
      B.countP (fun l2 => decide (l1.disease_id = l2.disease_id)))).sum := by
  induction A with
  | nil => simp
  | cons a A ih =>
    simp only [List.flatMap_cons, List.countP_append, List.map_cons,
      List.sum_cons, ih]
    congr 1
    rw [List.countP_map]
    rfl

lemma countP_eq_if_mem (l : List ℕ) (hl : l.Nodup) (d : ℕ) :
    l.countP (fun x => decide (d = x)) = if d ∈ l then 1 else 0 := by
  induction l with
  | nil => simp
  | cons a l ih =>
    rcases List.nodup_cons.mp hl with ⟨ha, hl2⟩
    by_cases hda : d = a
    · subst hda
      simp [List.countP_cons, ih hl2, ha]
    · simp [List.countP_cons, ih hl2, hda, List.mem_cons]

lemma countP_inner_eq (B : List BreedDiseaseLink)
    (hB : (B.map (fun l => l.disease_id)).Nodup) (d : ℕ) :
    B.countP (fun l2 => decide (d = l2.disease_id)) =
      if d ∈ B.map (fun l => l.disease_id) then 1 else 0 := by
  have hmap := List.countP_map (fun x => decide (d = x))
    (fun l : BreedDiseaseLink => l.disease_id) B
  calc B.countP (fun l2 => decide (d = l2.disease_id))
      = (B.map (fun l => l.disease_id)).countP (fun x => decide (d = x)) :=
        hmap.symm
    _ = if d ∈ B.map (fun l => l.disease_id) then 1 else 0 :=
        countP_eq_if_mem _ hB d

lemma sum_indicator_eq_countP (A : List BreedDiseaseLink) (P : ℕ → Prop)
    [DecidablePred P] :
    (A.map (fun l1 => if P l1.disease_id then 1 else 0)).sum =
      A.countP (fun l1 => decide (P l1.disease_id)) := by
  induction A with
  | nil => simp
  | cons a A ih =>
    rw [List.map_cons, List.sum_cons, List.countP_cons, ih]
    by_cases h : P a.disease_id
    · simp [h]
      omega
    · simp [h]

lemma diseaseIdsOf_nodup {s : Store} (h : LinkKeysNodup s) (bid : ℕ) :
    (diseaseIdsOf s bid).Nodup := by
  have hsub : (diseaseLinksOf s bid).Sublist s.links := List.filter_sublist _
  have hkeys :
      ((diseaseLinksOf s bid).map (fun l => (l.breed_id, l.disease_id))).Nodup :=
    List.Nodup.sublist (hsub.map _) h
  have h2 : List.Pairwise (fun l l' : BreedDiseaseLink =>
      (l.breed_id, l.disease_id) ≠ (l'.breed_id, l'.disease_id))
      (diseaseLinksOf s bid) := List.pairwise_map.mp hkeys
  have h3 : List.Pairwise (fun l l' : BreedDiseaseLink =>
      l.disease_id ≠ l'.disease_id) (diseaseLinksOf s bid) := by
    refine h2.imp_of_mem ?_
    intro a b ha hb hne hdis
    have hab : a.breed_id = bid := by
      have := (List.mem_filter.mp ha).2
      simpa using this
    have hbb : b.breed_id = bid := by
      have := (List.mem_filter.mp hb).2
      simpa using this
    exact hne (by rw [hab, hbb, hdis])
  exact List.pairwise_map.mpr h3

lemma sqlUnionCount_eq (s : Store) (t c : ℕ) :
    sqlUnionCount s t c = (diseaseSet s t ∪ diseaseSet s c).card := by
  unfold sqlUnionCount
  rw [← List.card_toFinset]
  congr 1
  ext x
  simp only [List.mem_toFinset, List.mem_map, List.mem_filter,
    decide_eq_true_eq, Finset.mem_union, diseaseSet, diseaseIdsOf,
    diseaseLinksOf]
  constructor
  · rintro ⟨l, ⟨hl, h | h⟩, rfl⟩
    · exact Or.inl ⟨l, ⟨hl, by simp [h]⟩, rfl⟩
    · exact Or.inr ⟨l, ⟨hl, by simp [h]⟩, rfl⟩
  · rintro (⟨l, ⟨hl, hbid⟩, rfl⟩ | ⟨l, ⟨hl, hbid⟩, rfl⟩)
    · exact ⟨l, ⟨hl, Or.inl (by simpa using hbid)⟩, rfl⟩
    · exact ⟨l, ⟨hl, Or.inr (by simpa using hbid)⟩, rfl⟩

lemma sqlIntersectionCount_eq {s : Store} (h : LinkKeysNodup s) (t c : ℕ) :
    sqlIntersectionCount s t c = (diseaseSet s t ∩ diseaseSet s c).card := by
  have hA := diseaseIdsOf_nodup h t
  have hB := diseaseIdsOf_nodup h c
  unfold sqlIntersectionCount
  rw [countP_pairs_eq_sum]
  have hsummand : (diseaseLinksOf s t).map (fun l1 =>
      (diseaseLinksOf s c).countP (fun l2 =>
        decide (l1.disease_id = l2.disease_id))) =
      (diseaseLinksOf s t).map (fun l1 =>
        if l1.disease_id ∈ (diseaseLinksOf s c).map (fun l => l.disease_id)
        then 1 else 0) := by
    apply List.map_congr_left
    intro l1 _
    exact countP_inner_eq _ hB _
  rw [hsummand, sum_indicator_eq_countP]
  have h1 : (diseaseLinksOf s t).countP (fun l1 =>
      decide (l1.disease_id ∈ (diseaseLinksOf s c).map (fun l => l.disease_id))) =
      (diseaseIdsOf s t).countP (fun d =>
        decide (d ∈ (diseaseLinksOf s c).map (fun l => l.disease_id))) :=
    (List.countP_map
      (fun d => decide (d ∈ (diseaseLinksOf s c).map (fun l : BreedDiseaseLink => l.disease_id)))
      (fun l : BreedDiseaseLink => l.disease_id) (diseaseLinksOf s t)).symm
  rw [h1, List.countP_eq_length_filter]
  have hnodupf : ((diseaseIdsOf s t).filter (fun d =>
      decide (d ∈ (diseaseLinksOf s c).map (fun l => l.disease_id)))).Nodup :=
    hA.filter _
  rw [← List.toFinset_card_of_nodup hnodupf]
  congr 1
  ext x
  simp only [List.mem_toFinset, List.mem_filter, decide_eq_true_eq,
    Finset.mem_inter, diseaseSet, diseaseIdsOf]

/-! ### Claim C1 -/

/-- C1: given the composite uniqueness of (breed, disease) links, the
raw similarity the engine computes for a candidate distinct from the
target equals the Jaccard similarity of the two disease sets (0 when
the union is empty), and the value lies in [0,1]. -/
theorem c1_similarity_is_jaccard (s : Store) (t c : ℕ)
    (huniq : LinkKeysNodup s) (_hne : t ≠ c) :
    sqlSimilarity s t c = jaccardSpec s t c ∧
      0 ≤ sqlSimilarity s t c ∧ sqlSimilarity s t c ≤ 1 := by
  have hnum := sqlIntersectionCount_eq huniq t c
  have hden := sqlUnionCount_eq s t c
  by_cases hz : sqlUnionCount s t c = 0
  · have hUz : diseaseSet s t ∪ diseaseSet s c = ∅ := by
      rw [← Finset.card_eq_zero, ← hden]
      exact hz
    unfold sqlSimilarity sqlSimilarityO jaccardSpec
    rw [if_pos hz, if_pos hUz]
    norm_num
  · have hU : diseaseSet s t ∪ diseaseSet s c ≠ ∅ := by
      intro hcontra
      apply hz
      rw [hden, hcontra]
      simp
    unfold sqlSimilarity sqlSimilarityO jaccardSpec
    rw [if_neg hz, if_neg hU]
    simp only [Option.getD_some]
    have hpos : (0 : ℚ) < (sqlUnionCount s t c : ℚ) := by
      have := Nat.pos_of_ne_zero hz
      exact_mod_cast this
    refine ⟨by rw [hnum, hden], ?_, ?_⟩
    · positivity
    · rw [div_le_one hpos]
      have hle : sqlIntersectionCount s t c ≤ sqlUnionCount s t c := by
        rw [hnum, hden]
        exact Finset.card_le_card Finset.inter_subset_union
      exact_mod_cast hle

/-- Concrete store for the C1 witness (spec Scenario A): X has diseases
{1, 2}, Y has disease {1}. -/
def c1store : Store :=
  ⟨[⟨1, "X", "dog"⟩, ⟨2, "Y", "dog"⟩], [⟨1, "H"⟩, ⟨2, "A"⟩],
    [⟨1, 1, 4/5⟩, ⟨1, 2, 2/5⟩, ⟨2, 1, 7/10⟩]⟩

theorem c1_witness :
    LinkKeysNodup c1store ∧ (1 : ℕ) ≠ 2 ∧
      (sqlSimilarity c1store 1 2 = jaccardSpec c1store 1 2 ∧
        0 ≤ sqlSimilarity c1store 1 2 ∧ sqlSimilarity c1store 1 2 ≤ 1) :=
  ⟨by decide, by decide,
    c1_similarity_is_jaccard c1store 1 2 (by decide) (by decide)⟩

/-! ### Lemmas about the shared-disease aggregator -/

lemma sharedAccum_nodup (s : Store) (tids : List ℕ) :
    ∀ (names : List String) (acc : List ℕ), acc.Nodup →
      (sharedAccum s tids acc names).Nodup := by
  intro names
  induction names with
  | nil => intro acc h; exact h
  | cons bn rest ih =>
    intro acc h
    cases hfind : s.breeds.find? (fun b => decide (b.name = bn)) with
    | none =>
      simp only [sharedAccum, hfind]
      exact ih acc h
    | some b =>
      simp only [sharedAccum, hfind]
      exact ih _ (List.Nodup.union _ h)

lemma sharedAccum_subset (s : Store) (tids : List ℕ) :
    ∀ (names : List String) (acc : List ℕ), (∀ x ∈ acc, x ∈ tids) →
      ∀ x ∈ sharedAccum s tids acc names, x ∈ tids := by
  intro names
  induction names with
  | nil => intro acc h; exact h
  | cons bn rest ih =>
    intro acc h
    cases hfind : s.breeds.find? (fun b => decide (b.name = bn)) with
    | none =>
      simp only [sharedAccum, hfind]
      exact ih acc h
    | some b =>
      simp only [sharedAccum, hfind]
      refine ih _ ?_
      intro x hx
      rcases List.mem_union_iff.mp hx with hx1 | hx2
      · exact (List.mem_inter_iff.mp hx1).2
      · exact h x hx2

lemma sharedAccum_skip (s : Store) (tids : List ℕ) :
    ∀ (names : List String) (acc : List ℕ),
      sharedAccum s tids acc (names.filter (fun n =>
        (s.breeds.find? (fun b => decide (b.name = n))).isSome)) =
      sharedAccum s tids acc names := by
  intro names
  induction names with
  | nil => intro acc; rfl
  | cons bn rest ih =>
    intro acc
    cases hfind : s.breeds.find? (fun b => decide (b.name = bn)) with
    | none =>
      rw [List.filter_cons]
      simp only [hfind, Option.isSome_none, if_false]
      simp only [sharedAccum, hfind]
      exact ih acc
    | some b =>
      rw [List.filter_cons]
      simp only [hfind, Option.isSome_some, if_true]
      simp only [sharedAccum, hfind]
      exact ih _

/-! ### Claim C6 -/

/-- C6: the shared-disease aggregator's output is sorted in Python's
string order, duplicate-free, and a subset of the names of the target's
own disease ids; unresolvable similar-breed names are skipped, so
filtering them away does not change the output.  The hypothesis
`htarget` (every target disease id occurs in the diseases table, which
the orchestrator guarantees by fetching the ids through a join)
restricts the statement to stores where the Python `disease_map[did]`
lookup cannot raise, which is where the embedding's skipping lookup
agrees with the source. -/
theorem c6_shared_diseases_props (s : Store) (target_disease_ids : List ℕ)
    (top_breed_names : List String)
    (hnames : (s.diseases.map (fun d => d.name)).Nodup)
    (_htarget : ∀ did ∈ target_disease_ids, ∃ d ∈ s.diseases, d.id = did) :
    (shared_diseases_with_top_breeds s target_disease_ids top_breed_names).Sorted strLe ∧
    (shared_diseases_with_top_breeds s target_disease_ids top_breed_names).Nodup ∧
    (∀ nm ∈ shared_diseases_with_top_breeds s target_disease_ids top_breed_names,
      nm ∈ target_disease_ids.filterMap (fun did =>
        (s.diseases.find? (fun d => decide (d.id = did))).map (fun d => d.name))) ∧
    shared_diseases_with_top_breeds s target_disease_ids top_breed_names =
      shared_diseases_with_top_breeds s target_disease_ids
        (top_breed_names.filter (fun n =>
          (s.breeds.find? (fun b => decide (b.name = n))).isSome)) := by
  by_cases hempty : top_breed_names = []
  · subst hempty
    refine ⟨?_, ?_, ?_, ?_⟩ <;> simp [shared_diseases_with_top_breeds]
  · have hids : (sharedAccum s target_disease_ids [] top_breed_names).Nodup :=
      sharedAccum_nodup s target_disease_ids top_breed_names [] List.nodup_nil
    have hinj : ∀ (a a' : ℕ) (b : String),
        b ∈ (s.diseases.find? (fun d => decide (d.id = a))).map (fun d => d.name) →
        b ∈ (s.diseases.find? (fun d => decide (d.id = a'))).map (fun d => d.name) →
        a = a' := by
      intro a a' b hb hb'
      cases hfa : s.diseases.find? (fun d => decide (d.id = a)) with
      | none => rw [hfa] at hb; simp at hb
      | some d =>
        cases hfa' : s.diseases.find? (fun d => decide (d.id = a')) with
        | none => rw [hfa'] at hb'; simp at hb'
        | some d' =>
          rw [hfa] at hb
          rw [hfa'] at hb'
          have hb2 : d.name = b := Option.some.inj hb
          have hb2' : d'.name = b := Option.some.inj hb'
          have hd : d ∈ s.diseases := List.mem_of_find?_eq_some hfa
          have hd' : d' ∈ s.diseases := List.mem_of_find?_eq_some hfa'
          have hide : d.id = a := by simpa using List.find?_some hfa
          have hide' : d'.id = a' := by simpa using List.find?_some hfa'
          have hdd : d = d' :=
            List.inj_on_of_nodup_map hnames hd hd' (hb2.trans hb2'.symm)
          rw [← hide, ← hide', hdd]
    have hfm : ((sharedAccum s target_disease_ids [] top_breed_names).filterMap
        (fun did => (s.diseases.find? (fun d => decide (d.id = did))).map
          (fun d => d.name))).Nodup :=
      List.Nodup.filterMap hinj hids
    refine ⟨?_, ?_, ?_, ?_⟩
    · unfold shared_diseases_with_top_breeds
      rw [if_neg hempty]
      exact List.sorted_insertionSort strLe _
    · unfold shared_diseases_with_top_breeds
      rw [if_neg hempty]
      exact ((List.perm_insertionSort strLe _).nodup_iff).mpr hfm
    · intro nm hnm
      unfold shared_diseases_with_top_breeds at hnm
      rw [if_neg hempty] at hnm
      have hnm2 := (List.perm_insertionSort strLe _).mem_iff.mp hnm
      rcases List.mem_filterMap.mp hnm2 with ⟨did, hdid, hf⟩
      have htid : did ∈ target_disease_ids :=
        sharedAccum_subset s target_disease_ids top_breed_names []
          (by intro x hx; exact absurd hx (List.not_mem_nil x)) did hdid
      exact List.mem_filterMap.mpr ⟨did, htid, hf⟩
    · by_cases hfe : top_breed_names.filter (fun n =>
          (s.breeds.find? (fun b => decide (b.name = n))).isSome) = []
      · unfold shared_diseases_with_top_breeds
        rw [if_neg hempty, if_pos hfe]
        have hacc := sharedAccum_skip s target_disease_ids top_breed_names []
        rw [hfe] at hacc
        rw [← hacc]
        rfl
      · unfold shared_diseases_with_top_breeds
        rw [if_neg hempty, if_neg hfe]
        rw [sharedAccum_skip s target_disease_ids top_breed_names []]

/-- Concrete store for the C6 witness: breeds X, Y, Z; diseases H, A;
X carries both, Y and Z carry H. -/
def c6store : Store :=
  ⟨[⟨1, "X", "dog"⟩, ⟨2, "Y", "dog"⟩, ⟨3, "Z", "cat"⟩],
    [⟨1, "H"⟩, ⟨2, "A"⟩],
    [⟨1, 1, 4/5⟩, ⟨1, 2, 2/5⟩, ⟨2, 1, 7/10⟩, ⟨3, 1, 3/5⟩]⟩

theorem c6_witness :
    ((c6store.diseases.map (fun d => d.name)).Nodup ∧
      ∀ did ∈ [1, 2], ∃ d ∈ c6store.diseases, d.id = did) ∧
    ((shared_diseases_with_top_breeds c6store [1, 2] ["Y", "Z", "nosuch"]).Sorted strLe ∧
      (shared_diseases_with_top_breeds c6store [1, 2] ["Y", "Z", "nosuch"]).Nodup ∧
      (∀ nm ∈ shared_diseases_with_top_breeds c6store [1, 2] ["Y", "Z", "nosuch"],
        nm ∈ ([1, 2] : List ℕ).filterMap (fun did =>
          (c6store.diseases.find? (fun d => decide (d.id = did))).map
            (fun d => d.name))) ∧
      shared_diseases_with_top_breeds c6store [1, 2] ["Y", "Z", "nosuch"] =
        shared_diseases_with_top_breeds c6store [1, 2]
          (["Y", "Z", "nosuch"].filter (fun n =>
            (c6store.breeds.find? (fun b => decide (b.name = n))).isSome))) :=
  ⟨⟨by decide, by decide⟩,
    c6_shared_diseases_props c6store [1, 2] ["Y", "Z", "nosuch"]
      (by decide) (by decide)⟩

/-! ### The orchestrator's two branches as equations -/

lemma run_ok_of_find (env : ExtEnv) (s : Store) (n : String) (target : Breed)
    (hfind : s.breeds.find? (fun b => decide (b.name = n)) = some target) :
    run_risk_analysis env s n = .ok ⟨target.name,
      apply_species_penalty target.species (top_similar_breeds_via_sql s target.name),
      shared_diseases_with_top_breeds s
        ((fetch_target_diseases s target.id).map (fun x => x.2.2))
        ((apply_species_penalty target.species
          (top_similar_breeds_via_sql s target.name)).map (fun t => t.1)),
      generate_care_plan env target.name
        ((fetch_target_diseases s target.id).map (fun x => (x.1, x.2.1)))⟩ := by
  unfold run_risk_analysis
  rw [hfind]

lemma run_error_of_find_none (env : ExtEnv) (s : Store) (n : String)
    (hfind : s.breeds.find? (fun b => decide (b.name = n)) = none) :
    run_risk_analysis env s n = .error (404,
      match get_close_matches n (s.breeds.map (fun b => b.name)) with
      | [] => "Breed '" ++ n ++ "' not found."
      | sug :: _ =>
        "Breed '" ++ n ++ "' not found." ++ " Did you mean '" ++ sug ++ "'?") := by
  unfold run_risk_analysis
  rw [hfind]

/-- In a table with unique breed names, the filter for the found name is
exactly the found row. -/
lemma filter_name_eq_singleton :
    ∀ (l : List Breed), (l.map (fun b => b.name)).Nodup →
      ∀ t ∈ l, ∀ n, t.name = n →
        l.filter (fun b => decide (b.name = n)) = [t] := by
  intro l
  induction l with
  | nil => intro _ t ht; exact absurd ht (List.not_mem_nil t)
  | cons a l ih =>
    intro hnd t ht n htn
    rw [List.map_cons, List.nodup_cons] at hnd
    obtain ⟨han, hnd2⟩ := hnd
    rw [List.filter_cons]
    by_cases ha : a.name = n
    · rw [if_pos (by simpa using ha)]
      have hft : l.filter (fun b => decide (b.name = n)) = [] := by
        rw [List.filter_eq_nil_iff]
        intro b hb
        simp only [decide_eq_true_eq]
        intro hbn
        exact han (by rw [ha, ← hbn]; exact List.mem_map_of_mem _ hb)
      have hta : t = a := by
        rcases List.mem_cons.mp ht with h | h
        · exact h
        · exfalso
          apply han
          rw [ha, ← htn]
          exact List.mem_map_of_mem _ h
      rw [hft, hta]
    · rw [if_neg (by simpa using ha)]
      have htl : t ∈ l := by
        rcases List.mem_cons.mp ht with h | h
        · exfalso
          apply ha
          rw [← h]
          exact htn
        · exact h
      exact ih hnd2 t htl n htn

/-! ### Claim C3 -/

/-- The ordering asserted by the claim for the final list: strictly
descending adjusted scores, with ties broken by name ascending. -/
def claimedOrder (x y : String × String × ℚ) : Prop :=
  y.2.2 < x.2.2 ∨ (x.2.2 = y.2.2 ∧ strLe x.1 y.1)

/-- C3 (amended): the final similar-breeds list of every successful
risk-analysis run is sorted in descending order of adjusted score (ties
keep the stable order of the pipeline, they are not re-broken by name),
and its length is exactly min 3 (number of candidate breeds) when breed
names are unique. -/
theorem c3_sorted_and_capped (env : ExtEnv) (s : Store) (n : String)
    (r : RiskAnalysisResponse)
    (hnodup : (s.breeds.map (fun b => b.name)).Nodup)
    (h : run_risk_analysis env s n = .ok r) :
    r.similar_breeds.Sorted scoreGe ∧
      r.similar_breeds.length =
        min 3 ((s.breeds.filter (fun b => decide (¬ b.name = n))).length) := by
  cases hfind : s.breeds.find? (fun b => decide (b.name = n)) with
  | none =>
    rw [run_error_of_find_none env s n hfind] at h
    exact absurd h (by simp)
  | some target =>
    rw [run_ok_of_find env s n target hfind] at h
    have h2 := Except.ok.inj h
    rw [← h2]
    have hname : target.name = n := by simpa using List.find?_some hfind
    have htmem : target ∈ s.breeds := List.mem_of_find?_eq_some hfind
    constructor
    · show (apply_species_penalty target.species
        (top_similar_breeds_via_sql s target.name)).Sorted scoreGe
      unfold apply_species_penalty
      exact List.sorted_insertionSort scoreGe _
    · show (apply_species_penalty target.species
        (top_similar_breeds_via_sql s target.name)).length = _
      have hsing := filter_name_eq_singleton s.breeds hnodup target htmem
        target.name rfl
      unfold apply_species_penalty top_similar_breeds_via_sql
      rw [(List.perm_insertionSort scoreGe _).length_eq, List.length_map,
        List.length_map, List.length_take,
        (List.perm_insertionSort rowGe _).length_eq]
      congr 1
      unfold rawRows
      rw [hsing, List.flatMap_cons, List.flatMap_nil, List.append_nil,
        List.length_map, hname]

def failEnv : ExtEnv := ⟨false, false, none⟩

def c3store : Store :=
  ⟨[⟨1, "T", "dog"⟩, ⟨2, "Zeta", "cat"⟩, ⟨3, "Alpha", "dog"⟩],
    [⟨1, "D1"⟩, ⟨2, "D2"⟩, ⟨3, "D3"⟩, ⟨4, "D4"⟩, ⟨5, "D5"⟩],
    [⟨1, 1, 1⟩, ⟨1, 2, 1⟩, ⟨2, 1, 1⟩,
      ⟨3, 1, 1⟩, ⟨3, 2, 1⟩, ⟨3, 3, 1⟩, ⟨3, 4, 1⟩, ⟨3, 5, 1⟩]⟩

lemma hu12 : sqlUnionCount c3store 1 2 = 2 := by decide
lemma hi12 : sqlIntersectionCount c3store 1 2 = 1 := by decide
lemma hu13 : sqlUnionCount c3store 1 3 = 5 := by decide
lemma hi13 : sqlIntersectionCount c3store 1 3 = 2 := by decide

lemma h12 : sqlSimilarityO c3store 1 2 = some (1/2) := by
  unfold sqlSimilarityO
  rw [hu12, hi12]
  norm_num

lemma h13 : sqlSimilarityO c3store 1 3 = some (2/5) := by
  unfold sqlSimilarityO
  rw [hu13, hi13]
  norm_num

lemma hraw : rawRows c3store "T" =
    [("Zeta", "cat", some ((1:ℚ)/2)), ("Alpha", "dog", some ((2:ℚ)/5))] := by
  have hraw0 : rawRows c3store "T" =
      [("Zeta", "cat", sqlSimilarityO c3store 1 2),
        ("Alpha", "dog", sqlSimilarityO c3store 1 3)] := by
    simp [rawRows, c3store]
  rw [hraw0, h12, h13]

lemma htop : top_similar_breeds_via_sql c3store "T" =
    [("Zeta", "cat", (1:ℚ)/2), ("Alpha", "dog", (2:ℚ)/5)] := by
  unfold top_similar_breeds_via_sql
  rw [hraw]
  norm_num [List.insertionSort, List.orderedInsert, rowGe, simLe]

lemma hadj : apply_species_penalty "dog"
    [("Zeta", "cat", (1:ℚ)/2), ("Alpha", "dog", (2:ℚ)/5)] =
    [("Zeta", "cat", (2:ℚ)/5), ("Alpha", "dog", (2:ℚ)/5)] := by
  unfold apply_species_penalty
  norm_num [adjustOne, List.insertionSort, List.orderedInsert, scoreGe,
    round4_two_fifths, show ¬ ("cat" : String) = "dog" by decide]

def c3resp : RiskAnalysisResponse :=
  ⟨"T", [("Zeta", "cat", (2:ℚ)/5), ("Alpha", "dog", (2:ℚ)/5)], ["D1", "D2"],
    "Preventive care plan for T:\n- D1: monitor, vet checkups, lifestyle adjustments.\n- D2: monitor, vet checkups, lifestyle adjustments."⟩

lemma c3run_eval : run_risk_analysis failEnv c3store "T" = .ok c3resp := by
  rw [run_ok_of_find failEnv c3store "T" ⟨1, "T", "dog"⟩ (by decide)]
  have hsim : apply_species_penalty (Breed.mk 1 "T" "dog").species
      (top_similar_breeds_via_sql c3store (Breed.mk 1 "T" "dog").name) =
      [("Zeta", "cat", (2:ℚ)/5), ("Alpha", "dog", (2:ℚ)/5)] := by
    show apply_species_penalty "dog" (top_similar_breeds_via_sql c3store "T") = _
    rw [htop]
    exact hadj
  rw [hsim]
  simp only [Except.ok.injEq, c3resp, RiskAnalysisResponse.mk.injEq]
  refine ⟨trivial, trivial, by decide, by decide⟩

theorem c3_counterexample :
    run_risk_analysis failEnv c3store "T" = .ok c3resp ∧
      ¬ c3resp.similar_breeds.Pairwise claimedOrder := by
  refine ⟨c3run_eval, ?_⟩
  intro hpw
  have h2 := (List.pairwise_cons.mp hpw).1 _ (List.mem_singleton.mpr rfl)
  rcases h2 with hlt | ⟨heq, hle⟩
  · exact absurd hlt (lt_irrefl _)
  · exact absurd hle (by decide)

def c2resp : RiskAnalysisResponse :=
  ⟨"X", [("Y", "dog", 0)], [], "Preventive care plan for X:\n"⟩

lemma round4_zero : round4 0 = 0 := round4_int _ 0 (by norm_num)

lemma c2h0 : sqlSimilarityO c2store 1 2 = none := by
  unfold sqlSimilarityO
  norm_num [show sqlUnionCount c2store 1 2 = 0 by decide]

lemma c2top : top_similar_breeds_via_sql c2store "X" = [("Y", "dog", (0:ℚ))] := by
  unfold top_similar_breeds_via_sql
  have hraw0 : rawRows c2store "X" = [("Y", "dog", sqlSimilarityO c2store 1 2)] := by
    simp [rawRows, c2store]
  rw [hraw0, c2h0]
  simp [List.insertionSort, List.orderedInsert]

lemma c2adj : apply_species_penalty "dog" [("Y", "dog", (0:ℚ))] = [("Y", "dog", (0:ℚ))] := by
  unfold apply_species_penalty
  norm_num [adjustOne, List.insertionSort, List.orderedInsert, round4_zero]

lemma c2run_eval : run_risk_analysis failEnv c2store "X" = .ok c2resp := by
  rw [run_ok_of_find failEnv c2store "X" ⟨1, "X", "dog"⟩ (by decide)]
  have hsim : apply_species_penalty (Breed.mk 1 "X" "dog").species
      (top_similar_breeds_via_sql c2store (Breed.mk 1 "X" "dog").name) =
      [("Y", "dog", (0:ℚ))] := by
    show apply_species_penalty "dog" (top_similar_breeds_via_sql c2store "X") = _
    rw [c2top]
    exact c2adj
  rw [hsim]
  simp only [Except.ok.injEq, c2resp, RiskAnalysisResponse.mk.injEq]
  refine ⟨trivial, trivial, by decide, by decide⟩

theorem c3_witness :
    ((c2store.breeds.map (fun b => b.name)).Nodup ∧
      run_risk_analysis failEnv c2store "X" = .ok c2resp) ∧
    (c2resp.similar_breeds.Sorted scoreGe ∧
      c2resp.similar_breeds.length =
        min 3 ((c2store.breeds.filter (fun b => decide (¬ b.name = "X"))).length)) :=
  ⟨⟨by decide, c2run_eval⟩,
    c3_sorted_and_capped failEnv c2store "X" c2resp (by decide) c2run_eval⟩

/-! ### Claim C5 -/

/-- The pipeline the specification describes for the refinement claim:
compute raw similarity for all candidates (no `LIMIT`), apply the score
adjuster to all of them, and truncate to the top 3 only at the end. -/
def all_similar_then_truncate (s : Store) (target_breed : String) :
    List (String × String × ℚ) :=
  match s.breeds.find? (fun b => decide (b.name = target_breed)) with
  | none => []
  | some target =>
    (apply_species_penalty target.species
      ((List.insertionSort rowGe (rawRows s target_breed)).map
        (fun r => (r.1, r.2.1, (r.2.2).getD 0)))).take 3

lemma all_similar_of_find (s : Store) (n : String) (target : Breed)
    (hfind : s.breeds.find? (fun b => decide (b.name = n)) = some target) :
    all_similar_then_truncate s n =
      (apply_species_penalty target.species
        ((List.insertionSort rowGe (rawRows s n)).map
          (fun r => (r.1, r.2.1, (r.2.2).getD 0)))).take 3 := by
  unfold all_similar_then_truncate
  rw [hfind]

lemma rawRows_species {s : Store} {n : String} {x : String × String × Option ℚ}
    (hx : x ∈ rawRows s n) : ∃ b ∈ s.breeds, x.2.1 = b.species := by
  unfold rawRows at hx
  rcases List.mem_flatMap.mp hx with ⟨b1, _, hx2⟩
  rcases List.mem_map.mp hx2 with ⟨b2, hb2, rfl⟩
  exact ⟨b2, (List.mem_filter.mp hb2).1, rfl⟩

lemma rawRows_nonneg {s : Store} {n : String} {x : String × String × Option ℚ}
    (hx : x ∈ rawRows s n) : ∀ q, x.2.2 = some q → 0 ≤ q := by
  unfold rawRows at hx
  rcases List.mem_flatMap.mp hx with ⟨b1, _, hx2⟩
  rcases List.mem_map.mp hx2 with ⟨b2, _, rfl⟩
  intro q hq
  simp only [sqlSimilarityO] at hq
  by_cases hz : sqlUnionCount s b1.id b2.id = 0
  · rw [if_pos hz] at hq
    exact absurd hq (by simp)
  · rw [if_neg hz] at hq
    have hq2 := Option.some.inj hq
    rw [← hq2]
    positivity

lemma sorted_collapse (L : List (String × String × Option ℚ))
    (hs : L.Sorted rowGe)
    (hnn : ∀ x ∈ L, ∀ q, x.2.2 = some q → 0 ≤ q) :
    (L.map (fun r => (r.1, r.2.1, (r.2.2).getD 0))).Sorted scoreGe := by
  apply List.pairwise_map.mpr
  refine hs.imp_of_mem ?_
  intro a b ha hb hab
  show (b.2.2).getD 0 ≤ (a.2.2).getD 0
  cases hb2 : b.2.2 with
  | none =>
    cases ha2 : a.2.2 with
    | none => simp
    | some qa =>
      simp only [Option.getD_some, Option.getD_none]
      exact hnn a ha qa ha2
  | some qb =>
    cases ha2 : a.2.2 with
    | none =>
      unfold rowGe at hab
      rw [hb2, ha2] at hab
      exact hab.elim
    | some qa =>
      unfold rowGe at hab
      rw [hb2, ha2] at hab
      simpa using hab

lemma apply_species_penalty_same (ts : String)
    (ll : List (String × String × ℚ)) (hsp : ∀ x ∈ ll, x.2.1 = ts) :
    apply_species_penalty ts ll =
      List.insertionSort scoreGe
        (ll.map (fun x => (x.1, x.2.1, round4 x.2.2))) := by
  unfold apply_species_penalty
  congr 1
  apply List.map_congr_left
  intro x hx
  unfold adjustOne
  rw [if_neg (not_not_intro (hsp x hx))]

lemma sorted_map_round4 (ll : List (String × String × ℚ))
    (h : ll.Sorted scoreGe) :
    (ll.map (fun x => (x.1, x.2.1, round4 x.2.2))).Sorted scoreGe := by
  apply List.pairwise_map.mpr
  exact h.imp (fun hab => round4_mono hab)

/-- The heart of the amended C5: with every breed of the target's
species (so the penalty never fires), adjusting the truncated engine
output equals truncating the fully adjusted output. -/
lemma adjust_take_comm (s : Store) (n : String) (ts : String)
    (hsp : ∀ b ∈ s.breeds, b.species = ts) :
    apply_species_penalty ts
      (((List.insertionSort rowGe (rawRows s n)).take 3).map
        (fun r => (r.1, r.2.1, (r.2.2).getD 0))) =
    (apply_species_penalty ts
      ((List.insertionSort rowGe (rawRows s n)).map
        (fun r => (r.1, r.2.1, (r.2.2).getD 0)))).take 3 := by
  have hLsorted : (List.insertionSort rowGe (rawRows s n)).Sorted rowGe :=
    List.sorted_insertionSort rowGe (rawRows s n)
  have hperm := List.perm_insertionSort rowGe (rawRows s n)
  have hLnn : ∀ x ∈ List.insertionSort rowGe (rawRows s n),
      ∀ q, x.2.2 = some q → 0 ≤ q :=
    fun x hx => rawRows_nonneg (hperm.mem_iff.mp hx)
  have hC : ((List.insertionSort rowGe (rawRows s n)).map
      (fun r => (r.1, r.2.1, (r.2.2).getD 0))).Sorted scoreGe :=
    sorted_collapse _ hLsorted hLnn
  have hCtake : (((List.insertionSort rowGe (rawRows s n)).take 3).map
      (fun r => (r.1, r.2.1, (r.2.2).getD 0))).Sorted scoreGe := by
    rw [List.map_take]
    exact List.Pairwise.sublist (List.take_sublist _ _) hC
  have hCspecies : ∀ x ∈ (List.insertionSort rowGe (rawRows s n)).map
      (fun r => (r.1, r.2.1, (r.2.2).getD 0)), x.2.1 = ts := by
    intro x hx
    rcases List.mem_map.mp hx with ⟨y, hy, rfl⟩
    rcases rawRows_species (hperm.mem_iff.mp hy) with ⟨b, hb, hyb⟩
    show y.2.1 = ts
    rw [hyb]
    exact hsp b hb
  have hCtakespecies : ∀ x ∈ ((List.insertionSort rowGe (rawRows s n)).take 3).map
      (fun r => (r.1, r.2.1, (r.2.2).getD 0)), x.2.1 = ts := by
    intro x hx
    rcases List.mem_map.mp hx with ⟨y, hy, rfl⟩
    rcases rawRows_species
      (hperm.mem_iff.mp ((List.take_sublist _ _).subset hy)) with ⟨b, hb, hyb⟩
    show y.2.1 = ts
    rw [hyb]
    exact hsp b hb
  rw [apply_species_penalty_same ts _ hCtakespecies,
    apply_species_penalty_same ts _ hCspecies,
    List.Sorted.insertionSort_eq (sorted_map_round4 _ hCtake),
    List.Sorted.insertionSort_eq (sorted_map_round4 _ hC),
    List.map_take, List.map_take]

/-- C5 (amended): when every breed in the store has the target's
species (so the cross-species penalty never fires), truncating the
engine's output to 3 before adjusting yields exactly the same final
list as adjusting all candidates and truncating at the end.  (The
counterexample below shows the equivalence fails in general.) -/
theorem c5_truncation_commutes_same_species (env : ExtEnv) (s : Store)
    (n : String) (sp : String) (r : RiskAnalysisResponse)
    (hsp : ∀ b ∈ s.breeds, b.species = sp)
    (h : run_risk_analysis env s n = .ok r) :
    r.similar_breeds = all_similar_then_truncate s n := by
  cases hfind : s.breeds.find? (fun b => decide (b.name = n)) with
  | none =>
    rw [run_error_of_find_none env s n hfind] at h
    exact absurd h (by simp)
  | some target =>
    rw [run_ok_of_find env s n target hfind] at h
    have h2 := Except.ok.inj h
    rw [← h2]
    show apply_species_penalty target.species
      (top_similar_breeds_via_sql s target.name) = _
    rw [all_similar_of_find s n target hfind]
    have hname : target.name = n := by simpa using List.find?_some hfind
    have hsp2 : ∀ b ∈ s.breeds, b.species = target.species := by
      intro b hb
      rw [hsp b hb, hsp target (List.mem_of_find?_eq_some hfind)]
    unfold top_similar_breeds_via_sql
    rw [hname]
    exact adjust_take_comm s n target.species hsp2

/-- Store for the C5 counterexample: three cats tie at raw 1/2 and fill
the truncated top 3; dog D at raw 3/7 overtakes them after the penalty
but only when truncation happens last. -/
def c5store : Store :=
  ⟨[⟨1, "T", "dog"⟩, ⟨2, "A", "cat"⟩, ⟨3, "B", "cat"⟩, ⟨4, "C", "cat"⟩,
      ⟨5, "D", "dog"⟩],
    [⟨1, "D1"⟩, ⟨2, "D2"⟩, ⟨3, "D3"⟩, ⟨4, "D4"⟩, ⟨5, "D5"⟩, ⟨6, "D6"⟩,
      ⟨7, "D7"⟩, ⟨8, "D8"⟩, ⟨9, "D9"⟩, ⟨10, "D10"⟩],
    [⟨1, 1, 1⟩, ⟨1, 2, 1⟩, ⟨1, 3, 1⟩,
      ⟨2, 1, 1⟩, ⟨2, 2, 1⟩, ⟨2, 4, 1⟩,
      ⟨3, 1, 1⟩, ⟨3, 2, 1⟩, ⟨3, 5, 1⟩,
      ⟨4, 1, 1⟩, ⟨4, 2, 1⟩, ⟨4, 6, 1⟩,
      ⟨5, 1, 1⟩, ⟨5, 2, 1⟩, ⟨5, 3, 1⟩, ⟨5, 7, 1⟩, ⟨5, 8, 1⟩, ⟨5, 9, 1⟩,
        ⟨5, 10, 1⟩]⟩

lemma round4_three_sevenths : round4 (3/7) = 2143/5000 := by
  unfold round4 roundHalfEven
  have hf : ⌊(3:ℚ)/7 * 10000⌋ = 4285 := by
    rw [show (3:ℚ)/7 * 10000 = 30000/7 by norm_num, Int.floor_eq_iff]
    constructor <;> norm_num
  rw [hf]
  norm_num

lemma c5s12 : sqlSimilarityO c5store 1 2 = some (1/2) := by
  unfold sqlSimilarityO
  rw [show sqlIntersectionCount c5store 1 2 = 2 by decide,
    show sqlUnionCount c5store 1 2 = 4 by decide]
  norm_num

lemma c5s13 : sqlSimilarityO c5store 1 3 = some (1/2) := by
  unfold sqlSimilarityO
  rw [show sqlIntersectionCount c5store 1 3 = 2 by decide,
    show sqlUnionCount c5store 1 3 = 4 by decide]
  norm_num

lemma c5s14 : sqlSimilarityO c5store 1 4 = some (1/2) := by
  unfold sqlSimilarityO
  rw [show sqlIntersectionCount c5store 1 4 = 2 by decide,
    show sqlUnionCount c5store 1 4 = 4 by decide]
  norm_num

lemma c5s15 : sqlSimilarityO c5store 1 5 = some (3/7) := by
  unfold sqlSimilarityO
  rw [show sqlIntersectionCount c5store 1 5 = 3 by decide,
    show sqlUnionCount c5store 1 5 = 7 by decide]
  norm_num

lemma c5raw : rawRows c5store "T" =
    [("A", "cat", some ((1:ℚ)/2)), ("B", "cat", some ((1:ℚ)/2)),
      ("C", "cat", some ((1:ℚ)/2)), ("D", "dog", some ((3:ℚ)/7))] := by
  have h0 : rawRows c5store "T" =
      [("A", "cat", sqlSimilarityO c5store 1 2),
        ("B", "cat", sqlSimilarityO c5store 1 3),
        ("C", "cat", sqlSimilarityO c5store 1 4),
        ("D", "dog", sqlSimilarityO c5store 1 5)] := by
    simp [rawRows, c5store]
  rw [h0, c5s12, c5s13, c5s14, c5s15]

lemma c5sorted : List.insertionSort rowGe (rawRows c5store "T") =
    [("A", "cat", some ((1:ℚ)/2)), ("B", "cat", some ((1:ℚ)/2)),
      ("C", "cat", some ((1:ℚ)/2)), ("D", "dog", some ((3:ℚ)/7))] := by
  rw [c5raw]
  norm_num [List.insertionSort, List.orderedInsert, rowGe, simLe]

lemma c5top : top_similar_breeds_via_sql c5store "T" =
    [("A", "cat", (1:ℚ)/2), ("B", "cat", (1:ℚ)/2), ("C", "cat", (1:ℚ)/2)] := by
  unfold top_similar_breeds_via_sql
  rw [c5sorted]
  norm_num [List.take]

lemma c5adj : apply_species_penalty "dog"
    [("A", "cat", (1:ℚ)/2), ("B", "cat", (1:ℚ)/2), ("C", "cat", (1:ℚ)/2)] =
    [("A", "cat", (2:ℚ)/5), ("B", "cat", (2:ℚ)/5), ("C", "cat", (2:ℚ)/5)] := by
  unfold apply_species_penalty
  norm_num [adjustOne, List.insertionSort, List.orderedInsert, scoreGe,
    round4_two_fifths, show ¬ ("cat" : String) = "dog" by decide]

lemma c5adjfull : apply_species_penalty "dog"
    [("A", "cat", (1:ℚ)/2), ("B", "cat", (1:ℚ)/2), ("C", "cat", (1:ℚ)/2),
      ("D", "dog", (3:ℚ)/7)] =
    [("D", "dog", (2143:ℚ)/5000), ("A", "cat", (2:ℚ)/5),
      ("B", "cat", (2:ℚ)/5), ("C", "cat", (2:ℚ)/5)] := by
  unfold apply_species_penalty
  norm_num [adjustOne, List.insertionSort, List.orderedInsert, scoreGe,
    round4_two_fifths, round4_three_sevenths,
    show ¬ ("cat" : String) = "dog" by decide]

lemma c5spec : all_similar_then_truncate c5store "T" =
    [("D", "dog", (2143:ℚ)/5000), ("A", "cat", (2:ℚ)/5), ("B", "cat", (2:ℚ)/5)] := by
  rw [all_similar_of_find c5store "T" ⟨1, "T", "dog"⟩ (by decide)]
  show (apply_species_penalty "dog" _).take 3 = _
  rw [c5sorted]
  have hmap : ([("A", "cat", some ((1:ℚ)/2)), ("B", "cat", some ((1:ℚ)/2)),
      ("C", "cat", some ((1:ℚ)/2)), ("D", "dog", some ((3:ℚ)/7))].map
        (fun r => (r.1, r.2.1, (r.2.2).getD 0))) =
      [("A", "cat", (1:ℚ)/2), ("B", "cat", (1:ℚ)/2), ("C", "cat", (1:ℚ)/2),
        ("D", "dog", (3:ℚ)/7)] := by
    simp
  rw [hmap, c5adjfull]
  rfl

def c5resp : RiskAnalysisResponse :=
  ⟨"T", [("A", "cat", (2:ℚ)/5), ("B", "cat", (2:ℚ)/5), ("C", "cat", (2:ℚ)/5)],
    ["D1", "D2"],
    "Preventive care plan for T:\n- D1: monitor, vet checkups, lifestyle adjustments.\n- D2: monitor, vet checkups, lifestyle adjustments.\n- D3: monitor, vet checkups, lifestyle adjustments."⟩

set_option maxRecDepth 4000 in
lemma c5run_eval : run_risk_analysis failEnv c5store "T" = .ok c5resp := by
  rw [run_ok_of_find failEnv c5store "T" ⟨1, "T", "dog"⟩ (by decide)]
  have hsim : apply_species_penalty (Breed.mk 1 "T" "dog").species
      (top_similar_breeds_via_sql c5store (Breed.mk 1 "T" "dog").name) =
      [("A", "cat", (2:ℚ)/5), ("B", "cat", (2:ℚ)/5), ("C", "cat", (2:ℚ)/5)] := by
    show apply_species_penalty "dog" (top_similar_breeds_via_sql c5store "T") = _
    rw [c5top]
    exact c5adj
  rw [hsim]
  simp only [Except.ok.injEq, c5resp, RiskAnalysisResponse.mk.injEq]
  refine ⟨trivial, trivial, by decide, by decide⟩

theorem c5_counterexample :
    run_risk_analysis failEnv c5store "T" = .ok c5resp ∧
      c5resp.similar_breeds ≠ all_similar_then_truncate c5store "T" := by
  refine ⟨c5run_eval, ?_⟩
  rw [c5spec]
  intro hEq
  exact absurd (congrArg (List.map (fun x => x.1)) hEq) (by decide)

theorem c5_witness :
    ((∀ b ∈ c2store.breeds, b.species = "dog") ∧
      run_risk_analysis failEnv c2store "X" = .ok c2resp) ∧
    c2resp.similar_breeds = all_similar_then_truncate c2store "X" :=
  ⟨⟨by decide, c2run_eval⟩,
    c5_truncation_commutes_same_species failEnv c2store "X" "dog" c2resp
      (by decide) c2run_eval⟩

/-! ### Claim C8 -/

/-- C8: an unknown breed name makes the pipeline fail with a 404 whose
detail carries the original name and, exactly when `difflib` finds a
close match, the single closest-matching known breed name as a
suggestion; the result is independent of the external-service state,
showing the failure happens before any later pipeline step. -/
theorem c8_not_found_with_suggestion (env env' : ExtEnv) (s : Store)
    (n : String)
    (hfind : s.breeds.find? (fun b => decide (b.name = n)) = none) :
    run_risk_analysis env s n = .error (404,
      match get_close_matches n (s.breeds.map (fun b => b.name)) with
      | [] => "Breed '" ++ n ++ "' not found."
      | sug :: _ =>
        "Breed '" ++ n ++ "' not found." ++ " Did you mean '" ++ sug ++ "'?") ∧
    run_risk_analysis env s n = run_risk_analysis env' s n := by
  refine ⟨run_error_of_find_none env s n hfind, ?_⟩
  rw [run_error_of_find_none env s n hfind, run_error_of_find_none env' s n hfind]

/-- Store for the C8 witness (spec Scenario F). -/
def labStore : Store := ⟨[⟨1, "Labrador Retriever", "dog"⟩], [], []⟩

lemma labMatchTotal : matchTotal "Labrador Retriever".data "Labradorr".data = 9 := by
  decide

lemma labSeqScore : seqScore "Labrador Retriever".data "Labradorr".data = 2/3 := by
  unfold seqScore calcScore
  rw [labMatchTotal,
    show "Labrador Retriever".data.length = 18 by decide,
    show "Labradorr".data.length = 9 by decide]
  norm_num

lemma labQuickScore : quickScore "Labrador Retriever".data "Labradorr".data = 2/3 := by
  unfold quickScore calcScore
  rw [show ("Labrador Retriever".data.dedup.map (fun c =>
      min ("Labrador Retriever".data.count c) ("Labradorr".data.count c))).sum = 9
    by decide,
    show "Labrador Retriever".data.length = 18 by decide,
    show "Labradorr".data.length = 9 by decide]
  norm_num

lemma labRealQuickScore :
    realQuickScore "Labrador Retriever".data "Labradorr".data = 2/3 := by
  unfold realQuickScore calcScore
  rw [show "Labrador Retriever".data.length = 18 by decide,
    show "Labradorr".data.length = 9 by decide]
  norm_num

lemma labClose : get_close_matches "Labradorr" ["Labrador Retriever"] =
    ["Labrador Retriever"] := by
  have hb1 : decide ((3:ℚ)/5 ≤
      realQuickScore "Labrador Retriever".data "Labradorr".data) = true := by
    rw [labRealQuickScore]
    exact decide_eq_true (by norm_num)
  have hb2 : decide ((3:ℚ)/5 ≤
      quickScore "Labrador Retriever".data "Labradorr".data) = true := by
    rw [labQuickScore]
    exact decide_eq_true (by norm_num)
  have hb3 : decide ((3:ℚ)/5 ≤
      seqScore "Labrador Retriever".data "Labradorr".data) = true := by
    rw [labSeqScore]
    exact decide_eq_true (by norm_num)
  unfold get_close_matches
  rw [List.filter_cons]
  simp only [hb1, hb2, hb3, Bool.and_self, if_true, List.filter_nil,
    List.map_cons, List.map_nil, List.foldl_nil]

theorem c8_witness :
    (labStore.breeds.find? (fun b => decide (b.name = "Labradorr")) = none) ∧
    run_risk_analysis failEnv labStore "Labradorr" =
      .error (404, "Breed 'Labradorr' not found. Did you mean 'Labrador Retriever'?") ∧
    run_risk_analysis failEnv labStore "Labradorr" =
      run_risk_analysis ⟨true, true, some "text"⟩ labStore "Labradorr" := by
  have h8 := c8_not_found_with_suggestion failEnv ⟨true, true, some "text"⟩
    labStore "Labradorr" (by decide)
  refine ⟨by decide, ?_, h8.2⟩
  rw [h8.1,
    show labStore.breeds.map (fun b => b.name) = ["Labrador Retriever"] by decide,
    labClose]
  decide
